import Mathlib

/-!
Verification of the isort streaming import-sorting engine (`src/isort/api.py`).

The engine is embedded shallowly: Python strings become Lean `String`s, the
per-character quote scanner, the per-line classifier and the flush controller
become structurally recursive functions, and the external categorize/sort
contract (`output.sorted_imports` composed with `parse.file_contents`, which
live outside the sources under verification) is a function parameter
`f : String → String`.  The engine can fail to terminate on malformed input
(the parenthesis-continuation loop has no end-of-stream guard), so runs return
`Option`: `none` models non-termination (or a raised `IndexError`).
-/

namespace Isort

/-- Python whitespace for `str.strip` / `str.lstrip` (the `isspace` set in the
Latin-1 range). -/
def pyWs (c : Char) : Bool :=
  c = ' ' || c = '\t' || c = '\n' || c = '\r' || c = '\x0b' || c = '\x0c' ||
  c = '\x1c' || c = '\x1d' || c = '\x1e' || c = '\x1f' || c = '\x85' || c = '\xa0'

/-- Python `s.lstrip()`. -/
def pyLstrip (s : String) : String := ⟨s.data.dropWhile pyWs⟩

/-- Python `s.strip()`. -/
def pyStrip (s : String) : String :=
  ⟨((s.data.dropWhile pyWs).reverse.dropWhile pyWs).reverse⟩

/-- List-level prefix test. -/
def isPrefixL : List Char → List Char → Bool
  | [], _ => true
  | _ :: _, [] => false
  | a :: as, b :: bs => a = b && isPrefixL as bs

/-- Python `s.startswith(p)`. -/
def pyStartsWith (s p : String) : Bool := isPrefixL p.data s.data

/-- Python `s.endswith(p)`. -/
def pyEndsWith (s p : String) : Bool := isPrefixL p.data.reverse s.data.reverse

/-- Python `c in s` for a single character. -/
def pyContainsChar (s : String) (c : Char) : Bool := s.data.contains c

/-- List-level substring test. -/
def containsSubL (pat : List Char) : List Char → Bool
  | [] => isPrefixL pat []
  | c :: cs => isPrefixL pat (c :: cs) || containsSubL pat cs

/-- Python `pat in s` (substring containment). -/
def containsSub (s pat : String) : Bool := containsSubL pat.data s.data

/-- Python `s.split("#")[0]` for an already stripped line: the prefix before
the first `#`. -/
def hashChop (s : String) : String := ⟨s.data.takeWhile (fun c => c ≠ '#')⟩

/-- Python `sep.join(xs)`. -/
def joinSep (sep : String) : List String → String
  | [] => ""
  | [x] => x
  | x :: xs => x ++ sep ++ joinSep sep xs

/-- Python `s.lstrip(set)`: drop leading characters belonging to `set`. -/
def lstripSet (s : String) (set : String) : String :=
  ⟨s.data.dropWhile (fun c => set.data.contains c)⟩

/-- Python `line[: -len(line.lstrip())]`: the leading whitespace of a line (empty for
an all-whitespace line, as in Python where the slice becomes `line[:0]`). -/
def pyIndentOf (line : String) : String :=
  if pyLstrip line = "" then "" else ⟨line.data.takeWhile pyWs⟩

/-- Python `line[-1]` as a string (empty for the empty string; the engine guards the
empty case separately, modelling Python's `IndexError`). -/
def pyLastCharStr (s : String) : String :=
  match s.data.getLast? with
  | some c => String.singleton c
  | none => ""

/-- Fuelled worker for Python `s.split(sep)` with non-empty `sep`. -/
def pySplitGo (sep : List Char) : Nat → List Char → List Char → List String
  | 0, rem, cur => [⟨cur.reverse ++ rem⟩]
  | _ + 1, [], cur => [⟨cur.reverse⟩]
  | fuel + 1, c :: cs, cur =>
      if isPrefixL sep (c :: cs) then
        (⟨cur.reverse⟩ : String) :: pySplitGo sep fuel (List.drop sep.length (c :: cs)) []
      else pySplitGo sep fuel cs (c :: cur)

/-- Python `s.split(sep)` (non-empty separator; Python raises on an empty
separator, which the engine never uses). -/
def pySplit (s sep : String) : List String :=
  if sep.data.isEmpty then [s] else pySplitGo sep.data (s.data.length + 1) s.data []

/-- Line-boundary characters of Python `str.splitlines`. -/
def isLineBreakChar (c : Char) : Bool :=
  c = '\n' || c = '\r' || c = '\x0b' || c = '\x0c' || c = '\x1c' || c = '\x1d' ||
  c = '\x1e' || c = '\x85' || c = '\u2028' || c = '\u2029'

/-- Worker for `str.splitlines(keepends=True)`. -/
def splitLinesKeepGo (cur : List Char) : List Char → List (List Char)
  | [] => if cur.isEmpty then [] else [cur.reverse]
  | '\r' :: '\n' :: cs => (cur.reverse ++ ['\r', '\n']) :: splitLinesKeepGo [] cs
  | c :: cs =>
      if isLineBreakChar c then (cur.reverse ++ [c]) :: splitLinesKeepGo [] cs
      else splitLinesKeepGo (c :: cur) cs

/-- Python `s.splitlines(keepends=True)`. -/
def splitLinesKeep (s : String) : List String :=
  (splitLinesKeepGo [] s.data).map (fun l => ⟨l⟩)

/-- Models Python `textwrap.indent(text, pre)` with the default predicate:
`pre` is prepended to every line of `text` that contains non-whitespace. -/
def textwrapIndent (text pre : String) : String :=
  (splitLinesKeep text).foldl
    (fun acc l => acc ++ (if pyStrip l = "" then l else pre ++ l)) ""

/-- Worker for the `StringIO` line iteration: split on `'\n'`, keeping the
terminator, with no empty final line. -/
def splitNLGo (cur : List Char) : List Char → List String
  | [] => if cur.isEmpty then [] else [⟨cur.reverse⟩]
  | c :: cs =>
      if c = '\n' then (⟨(c :: cur).reverse⟩ : String) :: splitNLGo [] cs
      else splitNLGo (c :: cur) cs

/-- The lines yielded by iterating `StringIO(s)` (newline kept, as in the
source's `sort_imports(StringIO(file_contents), ...)` call). -/
def splitLinesNL (s : String) : List String := splitNLGo [] s.data

/-- Concatenation of a list of strings. -/
def strConcat : List String → String
  | [] => ""
  | x :: xs => x ++ strConcat xs

/-- Source constant `IMPORT_START_IDENTIFIERS = ("from ", "from.import", "import ", "import*")`. -/
def IMPORT_START_IDENTIFIERS : List String := ["from ", "from.import", "import ", "import*"]

/-- Source constant `COMMENT_INDICATORS = ('"""', "'''", "'", '"', "#")`. -/
def COMMENT_INDICATORS : List String := ["\"\"\"", "'''", "'", "\"", "#"]

/-- Python `stripped_line.startswith(IMPORT_START_IDENTIFIERS)`. -/
def startsWithAnyImport (s : String) : Bool :=
  IMPORT_START_IDENTIFIERS.any (fun p => pyStartsWith s p)

/-- Python `x.startswith(COMMENT_INDICATORS)`. -/
def startsWithAnyCI (s : String) : Bool :=
  COMMENT_INDICATORS.any (fun p => pyStartsWith s p)

/-- The `Config` fields consumed by the engine and its orchestration API
(`settings.Config` itself lives outside the verified sources; defaults follow
the spec's description of the configuration).  `addImports` holds the
already-formatted statements to add: the source maps the external
`format_natural` (from the missing `format` module) over `config.add_imports`
before the loop, so the engine is modelled as receiving the formatted list.
`fileSkipComments` is modelled from the spec: the `FILE_SKIP_COMMENTS`
constant of the missing `settings` module, "a configurable set of exact
marker comments". -/
structure Config where
  lineEnding : String := ""
  addImports : List String := []
  importHeadings : List String := []
  forceAdds : Bool := false
  atomic : Bool := false
  ignoreWhitespace : Bool := false
  fileSkipComments : List String := []
deriving DecidableEq, Repr

/-- Source line 158: `section_comments = [f"# {heading}" for heading in config.import_headings.values()]`. -/
def sectionComments (cfg : Config) : List String :=
  cfg.importHeadings.map (fun h => "# " ++ h)

/-- The mutable scanner state of `sort_imports` (one field per local variable
of the loop; `section_comments` is constant and recomputed from `Config`). -/
structure SState where
  lineSep : String
  addImports : List String
  importSection : String
  inQuote : String
  fcis : Int
  fcie : Int
  containsImports : Bool
  inTopComment : Bool
  firstImportSection : Bool
  indent : String
  isortOff : Bool
deriving DecidableEq, Repr

/-- The state at loop entry (lines 149-160 of `api.py`). -/
def initialState (cfg : Config) : SState :=
  { lineSep := cfg.lineEnding
    addImports := cfg.addImports
    importSection := ""
    inQuote := ""
    fcis := -1
    fcie := -1
    containsImports := false
    inTopComment := false
    firstImportSection := true
    indent := ""
    isortOff := false }

/-- The triple-quote string opened by character `c`. -/
def tripleOf (c : Char) : String := if c = '\'' then "'''" else "\"\"\""

/-- The per-character quote scanner (the `while char_index < len(line)` loop,
lines 193-210).  Arguments: line index and `first_comment_index_start` (both
fixed during the loop), iteration fuel (the caller passes the line length plus
one, always enough because every iteration consumes at least one character),
the remaining characters, the current `in_quote`, and
`first_comment_index_end`. -/
def scanChars (idx : Int) (fcis : Int) : Nat → List Char → String → Int → String × Int
  | 0, _, q, e => (q, e)
  | _ + 1, [], q, e => (q, e)
  | fuel + 1, c :: cs, q, e =>
      if c = '\\' then
        match cs with
        | [] => (q, e)
        | _ :: cs' => scanChars idx fcis fuel cs' q e
      else if q ≠ "" then
        if isPrefixL q.data (c :: cs) then
          scanChars idx fcis fuel cs "" (if e < fcis then idx else e)
        else
          scanChars idx fcis fuel cs q e
      else if c = '\'' || c = '"' then
        match cs with
        | c2 :: c3 :: cs' =>
            if c2 = c && c3 = c then scanChars idx fcis fuel cs' (tripleOf c) e
            else scanChars idx fcis fuel (c2 :: c3 :: cs') (String.singleton c) e
        | cs' => scanChars idx fcis fuel cs' (String.singleton c) e
      else if c = '#' then (q, e)
      else scanChars idx fcis fuel cs q e

/-- The quote-tracking block for one line (lines 187-210): run the character
scanner when the line may contain an unquoted quote character. -/
def scanLine (index : Nat) (line : String) (st : SState) : SState :=
  let stripped := pyStrip line
  if ((!pyStartsWith stripped "#" || st.inQuote ≠ "") && pyContainsChar line '"')
      || pyContainsChar line '\'' then
    let fcis :=
      if st.fcis = -1 && (pyStartsWith line "\"" || pyStartsWith line "'") then
        (index : Int)
      else st.fcis
    let qe := scanChars index fcis (line.data.length + 1) line.data st.inQuote st.fcie
    { st with inQuote := qe.1, fcis := fcis, fcie := qe.2 }
  else st

/-- The top-of-file-comment update (lines 176-185). -/
def topCommentStep (sc : List String) (index : Nat) (line stripped : String)
    (st : SState) : SState :=
  if (index = 0 ∨ (index = 1 ∧ st.containsImports = false)) ∧
      pyStartsWith stripped "#" = true ∧ stripped ∉ sc then
    { st with inTopComment := true }
  else if st.inTopComment = true ∧
      (pyStartsWith line "#" = false ∨ stripped ∈ sc) then
    { st with inTopComment := false, fcie := (index : Int) - 1 }
  else st

/-- The two nested continuation-pulling `while` loops run in alternation:
`bs` is the trailing-backslash inner loop (lines 233-237), `paren` the
unbalanced-parenthesis inner loop (lines 238-242). -/
inductive CMode where
  | bs
  | paren
deriving DecidableEq, Repr

/-- Condition of the inner continuation loop in mode `m` for the current
comment-chopped stripped line `s`. -/
def innerCond (m : CMode) (s : String) : Bool :=
  match m with
  | .bs => s ≠ "" && pyEndsWith s "\\"
  | .paren => !pyContainsChar s ')'

/-- The outer continuation condition (line 230): trailing backslash first,
else an open parenthesis not balanced on the same logical line. -/
def outerMode (s : String) : Option CMode :=
  if pyEndsWith s "\\" then some CMode.bs
  else if pyContainsChar s '(' && !pyContainsChar s ')' then some CMode.paren
  else none

/-- One inner continuation loop followed by the outer re-check, fused into a
single structural recursion over the remaining input lines.  Returns the text
consumed into the import section and the remaining lines; `none` models the
non-terminating `while ")" not in stripped_line` loop at end of stream, where
`readline()` yields `""` forever.  In the backslash mode the end-of-stream
read of `""` makes the stripped line falsy and both loops exit. -/
def contGo (m : CMode) (s : String) (lines : List String) :
    Option (String × List String) :=
  if innerCond m s then
    match m, lines with
    | .bs, [] => some ("", [])
    | .paren, [] => none
    | m', l :: rest =>
        (contGo m' (hashChop (pyStrip l)) rest).map (fun tr => (l ++ tr.1, tr.2))
  else
    match outerMode s with
    | none => some ("", lines)
    | some m' =>
        match m', lines with
        | .bs, [] => some ("", [])
        | .paren, [] => none
        | m'', l :: rest =>
            (contGo m'' (hashChop (pyStrip l)) rest).map (fun tr => (l ++ tr.1, tr.2))

/-- The whole multi-line-continuation block (lines 230-242) for an
import-start line whose stripped text is `s`. -/
def contPull (s : String) (lines : List String) : Option (String × List String) :=
  match outerMode s with
  | none => some ("", lines)
  | some m => contGo m s lines

/-- One chunk of engine output: either text written directly to the output
stream, or the text returned by the external categorize/sort contract (with
any re-indentation applied). -/
inductive OutChunk where
  | verbatim (s : String)
  | sorted (s : String)
deriving DecidableEq, Repr

/-- The text of a chunk. -/
def chunkText : OutChunk → String
  | .verbatim s => s
  | .sorted s => s

/-- Concatenate the chunks into the text written to the output stream. -/
def renderChunks (cs : List OutChunk) : String :=
  cs.foldl (fun acc c => acc ++ chunkText c) ""

/-- The emission tail of the flush controller (lines 264-294 of `api.py`),
run on a non-empty buffer after injection and addition-appending have been
resolved: fold the triggering line into an unindented buffer, emit the buffer
verbatim or through the contract `f`, dedent/re-indent indented sections, and
reset the accumulator. -/
def flushEmit (f : String → String) (sep line : String) (st : SState) :
    List OutChunk × SState :=
  let sec := if st.indent = "" then st.importSection ++ line else st.importSection
  if st.containsImports = false then
    ([OutChunk.verbatim sec] ++ (if st.indent ≠ "" then [OutChunk.verbatim line] else []),
     { st with importSection := "", containsImports := false, indent := "" })
  else
    let stripFirst :=
      st.firstImportSection = true ∧ startsWithAnyCI (lstripSet sec sep) = false
    let sec2 := if stripFirst then lstripSet sec sep else sec
    let firstIS := if stripFirst then false else st.firstImportSection
    let sec3 :=
      if st.indent ≠ "" then joinSep sep ((pySplit sec2 sep).map pyLstrip) else sec2
    let sorted0 := f sec3
    let sorted1 := if st.indent ≠ "" then textwrapIndent sorted0 st.indent ++ sep else sorted0
    ([OutChunk.sorted sorted1] ++ (if st.indent ≠ "" then [OutChunk.verbatim line] else []),
     { st with importSection := ""
               containsImports := false
               indent := ""
               firstImportSection := firstIS })

/-- The flush controller minus the injection path (lines 258-297 of `api.py`):
append remaining additions to an unindented buffer (line 259), emit a
non-empty buffer, or write the triggering line directly when the buffer is
empty (line 296). -/
def flushCore (f : String → String) (sep line : String) (st : SState) :
    List OutChunk × SState :=
  if st.importSection ≠ "" then
    flushEmit f sep line
      (if st.addImports ≠ [] ∧ st.indent = "" then
        { st with importSection := st.importSection ++ joinSep sep st.addImports ++ sep
                  containsImports := true
                  addImports := [] }
      else st)
  else
    ([OutChunk.verbatim line], st)

/-- The flush controller (lines 246-297), run when `not_imports` holds: the
injection path (lines 247-256) synthesizes a section from pending additions
when the buffer is empty, then the buffer is flushed. -/
def flushStep (f : String → String) (sep line : String) (st : SState) :
    List OutChunk × SState :=
  flushCore f sep line
    (if st.addImports ≠ [] ∧ st.inTopComment = false ∧ st.inQuote = "" ∧
        st.importSection = "" ∧ startsWithAnyCI (pyLstrip line) = false then
      { st with importSection := joinSep sep st.addImports ++ sep
                containsImports := true
                addImports := [] }
    else st)

/-- One iteration of the engine loop for a real input line (the whole body of
the `for` loop at lines 162-297 minus the sentinel case): infer the line
separator, update the top-comment state, run the quote scanner, classify the
line, pull continuation lines, and flush when the line terminates the section.
Returns the chunks written, the updated state and the remaining input lines;
`none` models a raised `IndexError` (`line[-1]` on an empty line) or the
non-terminating continuation pull. -/
def lineStep (f : String → String) (cfg : Config) (index : Nat) (line : String)
    (rest : List String) (st : SState) :
    Option (List OutChunk × SState × List String) :=
  if st.lineSep = "" ∧ line = "" then none
  else
    let sep := if st.lineSep = "" then pyLastCharStr line else st.lineSep
    let stripped := pyStrip line
    let st := { st with lineSep := sep }
    let st := topCommentStep (sectionComments cfg) index line stripped st
    let st := scanLine index line st
    if st.inQuote ≠ "" ∨ st.inTopComment = true then
      let fs := flushStep f sep line st
      some (fs.1, fs.2, rest)
    else if st.isortOff = true then
      let st := if stripped = "# isort: on" then { st with isortOff := false } else st
      let fs := flushStep f sep line st
      some (fs.1, fs.2, rest)
    else if stripped = "# isort: off" then
      let fs := flushStep f sep line { st with isortOff := true }
      some (fs.1, fs.2, rest)
    else if stripped = "# isort: split" then
      let fs := flushStep f sep line st
      some (fs.1, fs.2, rest)
    else if stripped = "" ∨ pyStartsWith stripped "#" = true then
      some ([], { st with importSection := st.importSection ++ line }, rest)
    else if startsWithAnyImport stripped = true then
      let st := { st with containsImports := true
                          indent := pyIndentOf line
                          importSection := st.importSection ++ line }
      match contPull stripped rest with
      | none => none
      | some (t, rest') =>
          some ([], { st with importSection := st.importSection ++ t }, rest')
    else
      let fs := flushStep f sep line st
      some (fs.1, fs.2, rest)

/-- The end-of-stream sentinel iteration (`line is None`, lines 163-170 plus
the flush): the empty-stream/no-forced-adds case is handled by the caller. -/
def sentinelStep (f : String → String) (st : SState) : List OutChunk :=
  let sep := if st.lineSep = "" then "\n" else st.lineSep
  (flushStep f sep "" { st with lineSep := sep }).1

/-- The engine loop over the input lines.  The fuel argument only bounds the
recursion for Lean; `sortImportsChunks` supplies `lines.length + 1`, which is
always sufficient because every iteration consumes at least one input line
(continuation pulls only consume more). -/
def sortLoop (f : String → String) (cfg : Config) :
    Nat → List String → Nat → SState → Option (List OutChunk)
  | 0, _, _, _ => none
  | _ + 1, [], index, st =>
      if index = 0 ∧ cfg.forceAdds = false then some []
      else some (sentinelStep f st)
  | fuel + 1, line :: rest, index, st =>
      match lineStep f cfg index line rest st with
      | none => none
      | some (cs, st', rest') =>
          (sortLoop f cfg fuel rest' (index + 1) st').map (fun tail => cs ++ tail)

/-- Function `sort_imports` (lines 134-297) as a chunk producer: `f` is the external
categorize/sort contract, `lines` the input stream's lines. -/
def sortImportsChunks (f : String → String) (cfg : Config) (lines : List String) :
    Option (List OutChunk) :=
  sortLoop f cfg (lines.length + 1) lines 0 (initialState cfg)

/-- Function `sort_imports` as a text transformer: everything written to the output
stream, in order; `none` models non-termination. -/
def sortImportsRun (f : String → String) (cfg : Config) (lines : List String) :
    Option String :=
  (sortImportsChunks f cfg lines).map renderChunks

/-- The failure signals of the orchestration API (`exceptions` module). -/
inductive SortSignal where
  | fileSkipSetting
  | fileSkipComment
  | existingSyntaxErrors
  | introducedSyntaxErrors
deriving DecidableEq, Repr

/-- Function `sorted_imports` (lines 46-79).  `pyValid` models the host-grammar check
(`compile(file_contents, ...)`, an external collaborator), `isSkipped` the
value of `file_path and config.is_skipped(file_path)` (path-based skip rules
live in the missing `settings` module).  Note that, exactly as in the source,
both `compile` calls validate `file_contents` — the post-processing check
re-validates the original text, not the produced output. -/
def sortedImports (pyValid : String → Bool) (isSkipped : Bool)
    (f : String → String) (cfg : Config) (contents : String)
    (disregardSkip : Bool) : Option (Except SortSignal String) :=
  if disregardSkip = false ∧ isSkipped = true then
    some (Except.error SortSignal.fileSkipSetting)
  else if disregardSkip = false ∧
      cfg.fileSkipComments.any (fun m => containsSub contents m) = true then
    some (Except.error SortSignal.fileSkipComment)
  else if cfg.atomic = true ∧ pyValid contents = false then
    some (Except.error SortSignal.existingSyntaxErrors)
  else
    match sortImportsRun f cfg (splitLinesNL contents) with
    | none => none
    | some out =>
        if cfg.atomic = true ∧ pyValid contents = false then
          some (Except.error SortSignal.introducedSyntaxErrors)
        else some (Except.ok out)

/-- Function `check_imports` (lines 82-119), reduced to its return value (the printing
and diff rendering are external side channels).  `removeWS` models the
external `remove_whitespace` helper (with the inferred line separator folded
in), used only when `ignore_whitespace` is set. -/
def checkImports (pyValid : String → Bool) (isSkipped : Bool)
    (f : String → String) (removeWS : String → String) (cfg : Config)
    (contents : String) (disregardSkip : Bool) : Option (Except SortSignal Bool) :=
  match sortedImports pyValid isSkipped f cfg contents disregardSkip with
  | none => none
  | some (Except.error e) => some (Except.error e)
  | some (Except.ok sortedOutput) =>
      let compareIn :=
        if cfg.ignoreWhitespace = true then pyStrip (removeWS contents)
        else pyStrip contents
      let compareOut :=
        if cfg.ignoreWhitespace = true then pyStrip (removeWS sortedOutput)
        else pyStrip sortedOutput
      some (Except.ok (compareOut == compareIn))

/-- Invariant: while a string literal is open, the section buffer is empty. -/
def quoteEmptyInv (st : SState) : Prop := st.inQuote ≠ "" → st.importSection = ""

/-- Invariant: inside a suppressed region, the section buffer is empty. -/
def offEmptyInv (st : SState) : Prop := st.isortOff = true → st.importSection = ""

/-- Predicate: `s` is a concatenation of strings drawn from `P` (or empty strings, for
the end-of-stream sentinel): the shape of every piece of text the engine
writes without going through the categorize/sort contract. -/
def JoinOfP (P : String → Prop) (s : String) : Prop :=
  ∃ ls : List String, (∀ l ∈ ls, P l ∨ l = "") ∧ s = strConcat ls

/-- While the section buffer contains no real import statements, it is a
concatenation of input lines (buffered blank and comment lines). -/
def BufferInvP (P : String → Prop) (st : SState) : Prop :=
  st.containsImports = false → JoinOfP P st.importSection

theorem str_empty_append (s : String) : "" ++ s = s := by
  cases s
  rfl

theorem str_append_empty (s : String) : s ++ "" = s := by
  cases s with
  | mk l => show String.mk (l ++ []) = String.mk l
            rw [List.append_nil]

theorem str_append_assoc (a b c : String) : a ++ b ++ c = a ++ (b ++ c) := by
  cases a with
  | mk x =>
    cases b with
    | mk y =>
      cases c with
      | mk z => show String.mk (x ++ y ++ z) = String.mk (x ++ (y ++ z))
                rw [List.append_assoc]

theorem strConcat_snoc (ls : List String) (x : String) :
    strConcat (ls ++ [x]) = strConcat ls ++ x := by
  induction ls with
  | nil => show strConcat [x] = "" ++ x
           rw [str_empty_append]
           show x ++ "" = x
           exact str_append_empty x
  | cons a as ih =>
      show a ++ strConcat (as ++ [x]) = a ++ strConcat as ++ x
      rw [ih, str_append_assoc]

/-- C2: running `sorted_imports` twice with a fixed configuration and a
deterministic, idempotent contract is claimed to be a fixed point on the
second run; with the identity contract (which is deterministic and satisfies
`f (f x) = f x`) an indented import section gains one blank line on every run,
because the flush controller unconditionally appends a line separator after a
re-indented section (line 284 of `api.py`), so the second run's output differs
from the first run's output. -/
theorem indented_section_not_idempotent :
    sortedImports (fun _ => true) false (fun s => s) {} "  import b\nx\n" false
      = some (Except.ok "  import b\n\nx\n") ∧
    sortedImports (fun _ => true) false (fun s => s) {} "  import b\n\nx\n" false
      = some (Except.ok "  import b\n\n\nx\n") ∧
    ("  import b\n\nx\n" : String) ≠ "  import b\n\n\nx\n" :=
  ⟨rfl, rfl, by decide⟩

/-- C8: the engine does not terminate on every finite input stream: when the
input ends while a parenthesized import continuation is unresolved, the pull
loop (line 239 of `api.py`) reads `""` from the exhausted stream forever, so
`sort_imports` on the single line `"from x import (\n"` diverges (modelled as
`none`) instead of flushing the buffered line. -/
theorem unresolved_paren_at_eof_diverges :
    sortImportsRun (fun s => s) {} ["from x import (\n"] = none := rfl

/-- C1 counterexample: the ordinary code line `"x = 1\n"` terminating an
unindented import section is folded into the section buffer (line 265 of
`api.py`) and handed to the external contract instead of being written
directly, so a contract that returns only import text erases it from the
output: the claim that every non-import line is written byte-identical fails
at this input. -/
theorem folded_trigger_line_not_preserved :
    sortImportsRun (fun _ => "import z\n") {} ["import a\n", "x = 1\n"]
      = some "import z\n" ∧
    containsSub "import z\n" "x = 1" = false :=
  ⟨rfl, rfl⟩

/-- C3 counterexample: the pending-additions injection path (lines 247-256 of
`api.py`) does not consult the suppression flag, so when additions are still
pending at a non-comment line inside a `# isort: off` region, an import
section is synthesized there, the suppressed line is folded into it and handed
to the contract: the suppressed-region line `"x = 1\n"` is not passed through
unchanged (with this contract it disappears from the output entirely). -/
theorem injection_fires_inside_suppressed_region :
    sortImportsRun (fun _ => "import z\n")
      ({ addImports := ["import os"] } : Config)
      (splitLinesNL "  import z\nx\n# isort: off\nx = 1\n# isort: on\n")
      = some "  import z\n\nx\n# isort: off\nimport z\n# isort: on\n" ∧
    containsSub "  import z\n\nx\n# isort: off\nimport z\n# isort: on\n" "x = 1" = false :=
  ⟨rfl, rfl⟩

/-- C4 counterexample: the continuation test for the initial import line
(line 230 of `api.py`) uses the fully stripped line including any trailing
comment, so a `(` appearing only inside a comment does start a parenthesized
continuation: here `"y)\n"` is pulled into the section and `"z = 1\n"` is then
folded in as the terminating line, so neither reaches the output outside the
contract call — refuting the claim that comment parentheses never start a
continuation. -/
theorem comment_paren_starts_continuation :
    sortImportsRun (fun _ => "S\n") {} ["import x  # (\n", "y)\n", "z = 1\n"]
      = some "S\n" ∧
    containsSub "S\n" "y)" = false ∧
    containsSub "S\n" "z = 1" = false :=
  ⟨rfl, rfl, rfl⟩

/-- C9 counterexample: the dedent step (line 277 of `api.py`) lstrips every
line of an indented section completely rather than removing exactly the
recorded shared indentation: the comment line `"      # hello\n"` (six spaces,
in a section whose recorded indentation is two spaces) comes back as
`"  # hello\n"` with the identity contract, whereas removing exactly the
shared indentation and re-applying it would reproduce the original six
spaces. -/
theorem dedent_strips_all_leading_whitespace :
    sortImportsRun (fun s => s) {}
      (splitLinesNL "z = 1\nq = 2\n      # hello\n  import b\nx\n")
      = some "z = 1\nq = 2\n  # hello\n  import b\n\nx\n" ∧
    ("z = 1\nq = 2\n  # hello\n  import b\n\nx\n" : String)
      ≠ "z = 1\nq = 2\n      # hello\n  import b\n\nx\n" :=
  ⟨rfl, by decide⟩

theorem topCommentStep_skip (sc : List String) (index : Nat) (line stripped : String)
    (st : SState) (hh : pyStartsWith stripped "#" = false)
    (ht : st.inTopComment = false) :
    topCommentStep sc index line stripped st = st := by
  unfold topCommentStep
  rw [if_neg, if_neg]
  · intro h
    rw [ht] at h
    simp at h
  · intro h
    rw [hh] at h
    simp at h

theorem scanLine_skip (index : Nat) (line : String) (st : SState)
    (hd : pyContainsChar line '"' = false)
    (hs : pyContainsChar line '\'' = false) :
    scanLine index line st = st := by
  unfold scanLine
  rw [if_neg]
  rw [hd, hs]
  simp

theorem flushStep_empty_section (f : String → String) (sep line : String)
    (st : SState) (hsec : st.importSection = "")
    (hblock : st.addImports = [] ∨ st.inTopComment = true ∨ st.inQuote ≠ "" ∨
      startsWithAnyCI (pyLstrip line) = true) :
    flushStep f sep line st = ([OutChunk.verbatim line], st) := by
  have hinj : ¬ (st.addImports ≠ [] ∧ st.inTopComment = false ∧ st.inQuote = "" ∧
      st.importSection = "" ∧ startsWithAnyCI (pyLstrip line) = false) := by
    rcases hblock with h | h | h | h
    · exact fun hc => hc.1 h
    · exact fun hc => by rw [h] at hc; simp at hc
    · exact fun hc => h hc.2.2.1
    · exact fun hc => by rw [h] at hc; simp at hc
  unfold flushStep
  rw [if_neg hinj]
  unfold flushCore
  rw [if_neg (by intro h; exact h hsec)]

/-- The flush of an indented, import-bearing section (the `indent` branch of
lines 275-291 of `api.py`), for an already non-first section with no pending
additions: every line of the buffer is fully left-stripped, the result is
joined and handed to `f`, the recorded indentation is re-applied via
`textwrap.indent` plus one separator, and the triggering line is written
separately; the accumulator is reset. -/
theorem flushStep_indent_sorted (f : String → String) (sep line : String)
    (st : SState) (hsec : st.importSection ≠ "") (hci : st.containsImports = true)
    (hind : st.indent ≠ "") (hadd : st.addImports = [])
    (hfs : st.firstImportSection = false) :
    flushStep f sep line st =
      ([OutChunk.sorted (textwrapIndent
          (f (joinSep sep ((pySplit st.importSection sep).map pyLstrip))) st.indent ++ sep),
        OutChunk.verbatim line],
       { st with importSection := "", containsImports := false, indent := "" }) := by
  simp [flushStep, flushCore, flushEmit, hadd, hci, hind, hfs, hsec]

theorem isPrefixL_head (a : Char) (as bs : List Char)
    (h : isPrefixL (a :: as) bs = true) : ∃ t, bs = a :: t := by
  cases bs with
  | nil => cases h
  | cons b bt =>
      unfold isPrefixL at h
      rcases Bool.and_eq_true_iff.mp h with ⟨h1, _⟩
      have hab : a = b := of_decide_eq_true h1
      exact ⟨bt, by rw [hab]⟩

theorem import_start_first_char (s : String) (h : startsWithAnyImport s = true) :
    ∃ c t, s.data = c :: t ∧ (c = 'f' ∨ c = 'i') := by
  have h4 : pyStartsWith s "from " = true ∨ pyStartsWith s "from.import" = true ∨
      pyStartsWith s "import " = true ∨ pyStartsWith s "import*" = true := by
    simpa [startsWithAnyImport, IMPORT_START_IDENTIFIERS] using h
  rcases h4 with h | h | h | h
  · obtain ⟨t, ht⟩ := isPrefixL_head 'f' _ _ h
    exact ⟨'f', t, ht, Or.inl rfl⟩
  · obtain ⟨t, ht⟩ := isPrefixL_head 'f' _ _ h
    exact ⟨'f', t, ht, Or.inl rfl⟩
  · obtain ⟨t, ht⟩ := isPrefixL_head 'i' _ _ h
    exact ⟨'i', t, ht, Or.inr rfl⟩
  · obtain ⟨t, ht⟩ := isPrefixL_head 'i' _ _ h
    exact ⟨'i', t, ht, Or.inr rfl⟩

theorem import_start_not_hash (s : String) (h : startsWithAnyImport s = true) :
    pyStartsWith s "#" = false := by
  obtain ⟨c, t, hst, hc⟩ := import_start_first_char s h
  unfold pyStartsWith
  rw [show ("#" : String).data = ['#'] from rfl, hst]
  rcases hc with rfl | rfl <;> rfl

theorem import_start_ne_empty (s : String) (h : startsWithAnyImport s = true) :
    s ≠ "" := by
  obtain ⟨c, t, hst, _⟩ := import_start_first_char s h
  intro he
  rw [he] at hst
  cases hst

theorem ne_of_hash_mismatch (s t : String) (hs : pyStartsWith s "#" = false)
    (ht : pyStartsWith t "#" = true) : s ≠ t := by
  intro h
  rw [h, ht] at hs
  cases hs

/-- A line that is not blank, not a comment, not an import start and free of
quote characters, seen outside any literal, top comment or suppressed region,
terminates the section: the iteration reduces to one flush of the current
buffer. -/
theorem lineStep_ordinary (f : String → String) (cfg : Config) (index : Nat)
    (line sep : String) (rest : List String) (st : SState)
    (hline : line ≠ "")
    (hsep : sep = if st.lineSep = "" then pyLastCharStr line else st.lineSep)
    (hq : st.inQuote = "") (ht : st.inTopComment = false) (hoff : st.isortOff = false)
    (hd : pyContainsChar line '"' = false) (hs : pyContainsChar line '\'' = false)
    (hh : pyStartsWith (pyStrip line) "#" = false)
    (hne : pyStrip line ≠ "")
    (himp : startsWithAnyImport (pyStrip line) = false) :
    lineStep f cfg index line rest st =
      some ((flushStep f sep line { st with lineSep := sep }).1,
            (flushStep f sep line { st with lineSep := sep }).2, rest) := by
  have hoffd : pyStrip line ≠ "# isort: off" := ne_of_hash_mismatch _ _ hh (by decide)
  have hspl : pyStrip line ≠ "# isort: split" := ne_of_hash_mismatch _ _ hh (by decide)
  unfold lineStep
  rw [if_neg (by intro hc; exact hline hc.2)]
  simp only [← hsep]
  rw [topCommentStep_skip _ _ _ _ _ hh (by simp [ht]), scanLine_skip _ _ _ hd hs]
  simp only [hq, ht, hoff, hne, hh, himp, hoffd, hspl]
  simp

/-- C9 (amended): when an ordinary line terminates an import-bearing section
with non-empty recorded indentation (no pending additions, section not the
first of the file), the engine removes ALL leading whitespace from every line
of the buffer — not merely the shared recorded indentation — joins the result
with the line separator and hands it to the contract `f`; the recorded
indentation is then re-applied to every non-blank line of `f`'s result
(`textwrap.indent` semantics) followed by one line separator, and the original
triggering line is written separately after the sorted block, with the
accumulator and indent marker reset. -/
theorem indented_section_dedent_reindent (f : String → String) (cfg : Config)
    (index : Nat) (line sep : String) (rest : List String) (st : SState)
    (hline : line ≠ "")
    (hsep : sep = if st.lineSep = "" then pyLastCharStr line else st.lineSep)
    (hq : st.inQuote = "") (ht : st.inTopComment = false) (hoff : st.isortOff = false)
    (hd : pyContainsChar line '"' = false) (hs : pyContainsChar line '\'' = false)
    (hh : pyStartsWith (pyStrip line) "#" = false)
    (hne : pyStrip line ≠ "")
    (himp : startsWithAnyImport (pyStrip line) = false)
    (hsec : st.importSection ≠ "") (hci : st.containsImports = true)
    (hind : st.indent ≠ "") (hadd : st.addImports = [])
    (hfs : st.firstImportSection = false) :
    lineStep f cfg index line rest st =
      some ([OutChunk.sorted (textwrapIndent
              (f (joinSep sep ((pySplit st.importSection sep).map pyLstrip)))
              st.indent ++ sep),
             OutChunk.verbatim line],
            { st with lineSep := sep, importSection := "", containsImports := false,
                      indent := "" },
            rest) := by
  rw [lineStep_ordinary f cfg index line sep rest st hline hsep hq ht hoff hd hs hh hne himp]
  rw [flushStep_indent_sorted f sep line { st with lineSep := sep }
    (by simpa using hsec) (by simpa using hci) (by simpa using hind)
    (by simpa using hadd) (by simpa using hfs)]

/-- C9 witness: the amended dedent/re-indent theorem applied to the identity
contract, the buffered section `"      # hello\n  import b\n"` (recorded
indentation two spaces, one line indented six spaces) and the triggering line
`"x\n"`. -/
theorem indented_section_dedent_reindent_witness :
    lineStep (fun s => s) {} 4 "x\n" []
      { lineSep := "\n", addImports := [], importSection := "      # hello\n  import b\n",
        inQuote := "", fcis := -1, fcie := -1, containsImports := true,
        inTopComment := false, firstImportSection := false, indent := "  ",
        isortOff := false } =
      some ([OutChunk.sorted (textwrapIndent
              ((fun s => s) (joinSep "\n"
                ((pySplit "      # hello\n  import b\n" "\n").map pyLstrip)))
              "  " ++ "\n"),
             OutChunk.verbatim "x\n"],
            { lineSep := "\n", addImports := [], importSection := "",
              inQuote := "", fcis := -1, fcie := -1, containsImports := false,
              inTopComment := false, firstImportSection := false, indent := "",
              isortOff := false },
            []) :=
  indented_section_dedent_reindent (fun s => s) {} 4 "x\n" "\n" []
    { lineSep := "\n", addImports := [], importSection := "      # hello\n  import b\n",
      inQuote := "", fcis := -1, fcie := -1, containsImports := true,
      inTopComment := false, firstImportSection := false, indent := "  ",
      isortOff := false }
    (by decide) (by decide) (by decide) (by decide) (by decide) (by decide) (by decide)
    (by decide) (by decide) (by decide) (by decide) (by decide) (by decide) (by decide)
    (by decide)

/-- The injection path of the flush controller (lines 247-256 of `api.py`):
with pending additions, an empty buffer, no open literal or top comment, and a
non-comment triggering line, a section consisting of the joined additions is
synthesized, the triggering line is folded in (no indentation is recorded) and
the result goes through the contract. -/
theorem flushStep_inject (f : String → String) (sep line : String) (st : SState)
    (hadd : st.addImports ≠ []) (ht : st.inTopComment = false) (hq : st.inQuote = "")
    (hsec : st.importSection = "") (hci : startsWithAnyCI (pyLstrip line) = false)
    (hne : joinSep sep st.addImports ++ sep ≠ "")
    (hfs : st.firstImportSection = true) (hindent : st.indent = "")
    (hstrip : startsWithAnyCI (lstripSet (joinSep sep st.addImports ++ sep ++ line) sep) = false) :
    flushStep f sep line st =
      ([OutChunk.sorted (f (lstripSet (joinSep sep st.addImports ++ sep ++ line) sep))],
       { st with importSection := "", containsImports := false, indent := "",
                 addImports := [], firstImportSection := false }) := by
  simp [flushStep, flushCore, flushEmit, hadd, ht, hq, hsec, hci, hne, hfs, hindent, hstrip]

/-- C5: on an empty input stream the engine writes nothing at all when forced
injection is disabled; with forced injection enabled and the single pending
addition `import os` (and a conventional configured line ending, with a
contract fixing the injected statement) the output is exactly `"import os"`
followed by one line ending. -/
theorem empty_stream_output (f : String → String) (cfg : Config) :
    (cfg.forceAdds = false → sortImportsRun f cfg [] = some "") ∧
    (cfg.forceAdds = true → cfg.addImports = ["import os"] →
      (cfg.lineEnding = "" ∨ cfg.lineEnding = "\n" ∨ cfg.lineEnding = "\r\n" ∨
        cfg.lineEnding = "\r") →
      ∀ sep, sep = (if cfg.lineEnding = "" then "\n" else cfg.lineEnding) →
      f ("import os" ++ sep) = "import os" ++ sep →
      sortImportsRun f cfg [] = some ("import os" ++ sep)) := by
  constructor
  · intro hfa
    simp [sortImportsRun, sortImportsChunks, sortLoop, hfa, renderChunks]
  · intro hfa hadd hle sep hsep hf
    have hstep : flushStep f sep ""
        { initialState cfg with lineSep := sep } =
        ([OutChunk.sorted (f (lstripSet (joinSep sep cfg.addImports ++ sep ++ "") sep))],
         { initialState cfg with
             lineSep := sep
             importSection := ""
             containsImports := false
             indent := ""
             addImports := []
             firstImportSection := false }) := by
      apply flushStep_inject
      · show cfg.addImports ≠ []
        rw [hadd]
        decide
      · rfl
      · rfl
      · rfl
      · decide
      · show joinSep sep cfg.addImports ++ sep ≠ ""
        rw [hadd, hsep]
        rcases hle with h | h | h | h <;> rw [h] <;> decide
      · rfl
      · rfl
      · show startsWithAnyCI (lstripSet (joinSep sep cfg.addImports ++ sep ++ "") sep) = false
        rw [hadd, hsep]
        rcases hle with h | h | h | h <;> rw [h] <;> decide
    have hrun : sortImportsChunks f cfg [] =
        some [OutChunk.sorted (f (lstripSet (joinSep sep cfg.addImports ++ sep ++ "") sep))] := by
      have hsent : sentinelStep f (initialState cfg) = (flushStep f sep ""
          { initialState cfg with lineSep := sep }).1 := by
        unfold sentinelStep
        have hsepeq : (if (initialState cfg).lineSep = "" then "\n"
            else (initialState cfg).lineSep) = sep := by
          show (if cfg.lineEnding = "" then "\n" else cfg.lineEnding) = sep
          exact hsep.symm
        rw [hsepeq]
      rw [sortImportsChunks]
      show sortLoop f cfg 1 [] 0 (initialState cfg) = _
      rw [sortLoop, if_neg (by rw [hfa]; simp), hsent, hstep]
    rw [sortImportsRun, hrun]
    have hx : lstripSet (joinSep sep cfg.addImports ++ sep) sep = "import os" ++ sep := by
      rw [hadd, hsep]
      rcases hle with h | h | h | h <;> rw [h] <;> decide
    simp [renderChunks, chunkText, hx, hf, str_empty_append]

/-- C5 witness: the empty-stream theorem applied to the identity contract
with (a) the default configuration and (b) forced injection of `import os`. -/
theorem empty_stream_output_witness :
    sortImportsRun (fun s => s) {} [] = some "" ∧
    sortImportsRun (fun s => s)
      ({ forceAdds := true, addImports := ["import os"] } : Config) []
      = some ("import os" ++ "\n") :=
  ⟨(empty_stream_output (fun s => s) {}).1 rfl,
   (empty_stream_output (fun s => s)
      ({ forceAdds := true, addImports := ["import os"] } : Config)).2
     rfl rfl (Or.inl rfl) "\n" (by decide) rfl⟩

/-- C6: when skip checks are not disregarded and either the file path matches
a skip rule or the text contains one of the configured skip-file markers,
`sorted_imports` raises a Skip signal (`FileSkipSetting` or `FileSkipComment`)
before any transformation is attempted — the result is an error, never
transformed text. -/
theorem skip_raises_signal (pyValid : String → Bool) (isSkipped : Bool)
    (f : String → String) (cfg : Config) (contents : String)
    (h : isSkipped = true ∨
      cfg.fileSkipComments.any (fun m => containsSub contents m) = true) :
    (∃ e, sortedImports pyValid isSkipped f cfg contents false
        = some (Except.error e) ∧
      (e = SortSignal.fileSkipSetting ∨ e = SortSignal.fileSkipComment)) ∧
    (∀ e, sortedImports pyValid isSkipped f cfg contents true
        = some (Except.error e) →
      e ≠ SortSignal.fileSkipSetting ∧ e ≠ SortSignal.fileSkipComment) := by
  constructor
  · by_cases hs : isSkipped = true
    · refine ⟨SortSignal.fileSkipSetting, ?_, Or.inl rfl⟩
      simp [sortedImports, hs]
    · rcases h with h | h
      · exact absurd h hs
      · refine ⟨SortSignal.fileSkipComment, ?_, Or.inr rfl⟩
        simp [sortedImports, hs, h]
  · intro e he
    unfold sortedImports at he
    rw [if_neg (by simp), if_neg (by simp)] at he
    by_cases ha : cfg.atomic = true ∧ pyValid contents = false
    · rw [if_pos ha] at he
      cases he
      exact ⟨by decide, by decide⟩
    · rw [if_neg ha] at he
      rcases hrun : sortImportsRun f cfg (splitLinesNL contents) with _ | out
      · rw [hrun] at he
        cases he
      · rw [hrun] at he
        simp [ha] at he

/-- C6 witness: a text containing the configured marker `isort:skip_file`
produces a Skip signal (and with `disregard_skip` no skip signal arises). -/
theorem skip_raises_signal_witness :
    (∃ e, sortedImports (fun _ => true) false (fun s => s)
        ({ fileSkipComments := ["isort:skip_file"] } : Config)
        "import a  # isort:skip_file\n" false = some (Except.error e) ∧
      (e = SortSignal.fileSkipSetting ∨ e = SortSignal.fileSkipComment)) ∧
    (∀ e, sortedImports (fun _ => true) false (fun s => s)
        ({ fileSkipComments := ["isort:skip_file"] } : Config)
        "import a  # isort:skip_file\n" true = some (Except.error e) →
      e ≠ SortSignal.fileSkipSetting ∧ e ≠ SortSignal.fileSkipComment) :=
  skip_raises_signal (fun _ => true) false (fun s => s)
    ({ fileSkipComments := ["isort:skip_file"] } : Config)
    "import a  # isort:skip_file\n" (Or.inr (by decide))

/-- C7: with atomic mode enabled (and no skip), `sorted_imports` raises
`ExistingSyntaxErrors` exactly when the original input fails host-grammar
validation before processing; and because the post-processing check
re-validates the original input text rather than the produced output, every
input that passes pre-validation can never raise `IntroducedSyntaxErrors`:
the transformed text is returned whenever the engine terminates. -/
theorem atomic_validates_original_only (pyValid : String → Bool)
    (f : String → String) (cfg : Config) (contents : String)
    (hatomic : cfg.atomic = true)
    (hskip : cfg.fileSkipComments.any (fun m => containsSub contents m) = false) :
    (pyValid contents = false ↔
      sortedImports pyValid false f cfg contents false
        = some (Except.error SortSignal.existingSyntaxErrors)) ∧
    (pyValid contents = true →
      sortedImports pyValid false f cfg contents false
        = (sortImportsRun f cfg (splitLinesNL contents)).map Except.ok) := by
  constructor
  · constructor
    · intro hv
      simp [sortedImports, hskip, hatomic, hv]
    · intro he
      by_cases hv : pyValid contents = false
      · exact hv
      · exfalso
        rw [Bool.not_eq_false] at hv
        unfold sortedImports at he
        rw [if_neg (by simp), if_neg (by simp [hskip]),
          if_neg (by rw [hv]; simp)] at he
        rcases hrun : sortImportsRun f cfg (splitLinesNL contents) with _ | out <;>
          rw [hrun] at he
        · cases he
        · simp [hv] at he
  · intro hv
    unfold sortedImports
    rw [if_neg (by simp), if_neg (by simp [hskip]), if_neg (by rw [hv]; simp)]
    rcases hrun : sortImportsRun f cfg (splitLinesNL contents) with _ | out
    · rfl
    · simp [hv]

/-- C7 witness: the atomic-mode theorem applied to a validator accepting
everything (so the input passes pre-validation and the sorted text is
returned) — instantiated also showing the `Iff` is usable concretely. -/
theorem atomic_validates_original_only_witness :
    sortedImports (fun _ => true) false (fun s => s)
      ({ atomic := true } : Config) "import a\n" false
      = (sortImportsRun (fun s => s) ({ atomic := true } : Config)
          (splitLinesNL "import a\n")).map Except.ok :=
  (atomic_validates_original_only (fun _ => true) (fun s => s)
    ({ atomic := true } : Config) "import a\n" rfl rfl).2 rfl

/-- C10: `check_imports` strips leading and trailing whitespace from both the
input and the sorted output before comparing, even with `ignore_whitespace`
disabled, so whenever the sorted output differs from the input only in
leading or trailing whitespace the check reports success. -/
theorem check_imports_strips_whitespace (pyValid : String → Bool)
    (isSkipped : Bool) (f : String → String) (removeWS : String → String)
    (cfg : Config) (contents out : String) (disregardSkip : Bool)
    (hignore : cfg.ignoreWhitespace = false)
    (hsort : sortedImports pyValid isSkipped f cfg contents disregardSkip
      = some (Except.ok out))
    (hstrip : pyStrip out = pyStrip contents) :
    checkImports pyValid isSkipped f removeWS cfg contents disregardSkip
      = some (Except.ok true) := by
  unfold checkImports
  rw [hsort]
  simp [hignore, hstrip]

theorem contGo_paren_run (last : String) (rest : List String)
    (hlast : pyContainsChar (hashChop (pyStrip last)) ')' = true)
    (hlastbs : pyEndsWith (hashChop (pyStrip last)) "\\" = false) :
    ∀ (mid : List String) (s : String),
      pyContainsChar s ')' = false →
      (∀ l ∈ mid, pyContainsChar (hashChop (pyStrip l)) ')' = false) →
      contGo CMode.paren s (mid ++ last :: rest) = some (strConcat mid ++ last, rest) := by
  have hinner : contGo CMode.paren (hashChop (pyStrip last)) rest = some ("", rest) := by
    unfold contGo
    rw [if_neg (by simp [innerCond, hlast])]
    rw [show outerMode (hashChop (pyStrip last)) = none from by
      unfold outerMode
      rw [if_neg (by simp [hlastbs]), if_neg (by simp [hlast])]]
  intro mid
  induction mid with
  | nil =>
      intro s hs _
      show contGo CMode.paren s (last :: rest) = some (strConcat [] ++ last, rest)
      unfold contGo
      rw [if_pos (by simp [innerCond, hs])]
      show (contGo CMode.paren (hashChop (pyStrip last)) rest).map
          (fun tr => (last ++ tr.1, tr.2)) = _
      rw [hinner]
      show some (last ++ "", rest) = some (strConcat [] ++ last, rest)
      rw [str_append_empty, show strConcat [] = "" from rfl, str_empty_append]
  | cons m ms ih =>
      intro s hs hmid
      show contGo CMode.paren s (m :: (ms ++ last :: rest)) = _
      unfold contGo
      rw [if_pos (by simp [innerCond, hs])]
      show (contGo CMode.paren (hashChop (pyStrip m)) (ms ++ last :: rest)).map
          (fun tr => (m ++ tr.1, tr.2)) = _
      rw [ih (hashChop (pyStrip m)) (hmid m (by simp))
        (fun l hl => hmid l (by simp [hl]))]
      show some (m ++ (strConcat ms ++ last), rest) = some (strConcat (m :: ms) ++ last, rest)
      rw [show strConcat (m :: ms) = m ++ strConcat ms from rfl, str_append_assoc]

theorem contGo_bs_run (last : String) (rest : List String)
    (hlastbs : pyEndsWith (hashChop (pyStrip last)) "\\" = false)
    (hlastp : (pyContainsChar (hashChop (pyStrip last)) '(' &&
      !pyContainsChar (hashChop (pyStrip last)) ')') = false) :
    ∀ (mid : List String) (s : String),
      s ≠ "" → pyEndsWith s "\\" = true →
      (∀ l ∈ mid, hashChop (pyStrip l) ≠ "" ∧
        pyEndsWith (hashChop (pyStrip l)) "\\" = true) →
      contGo CMode.bs s (mid ++ last :: rest) = some (strConcat mid ++ last, rest) := by
  have hinner : contGo CMode.bs (hashChop (pyStrip last)) rest = some ("", rest) := by
    unfold contGo
    rw [if_neg (by simp [innerCond, hlastbs])]
    rw [show outerMode (hashChop (pyStrip last)) = none from by
      unfold outerMode
      rw [if_neg (by simp [hlastbs]), if_neg (by simp [hlastp])]]
  intro mid
  induction mid with
  | nil =>
      intro s hs hbs _
      show contGo CMode.bs s (last :: rest) = some (strConcat [] ++ last, rest)
      unfold contGo
      rw [if_pos (by simp [innerCond, hs, hbs])]
      show (contGo CMode.bs (hashChop (pyStrip last)) rest).map
          (fun tr => (last ++ tr.1, tr.2)) = _
      rw [hinner]
      show some (last ++ "", rest) = some (strConcat [] ++ last, rest)
      rw [str_append_empty, show strConcat [] = "" from rfl, str_empty_append]
  | cons m ms ih =>
      intro s hs hbs hmid
      show contGo CMode.bs s (m :: (ms ++ last :: rest)) = _
      unfold contGo
      rw [if_pos (by simp [innerCond, hs, hbs])]
      show (contGo CMode.bs (hashChop (pyStrip m)) (ms ++ last :: rest)).map
          (fun tr => (m ++ tr.1, tr.2)) = _
      rw [ih (hashChop (pyStrip m)) (hmid m (by simp)).1 (hmid m (by simp)).2
        (fun l hl => hmid l (by simp [hl]))]
      show some (m ++ (strConcat ms ++ last), rest) = some (strConcat (m :: ms) ++ last, rest)
      rw [show strConcat (m :: ms) = m ++ strConcat ms from rfl, str_append_assoc]

theorem lineStep_import_pull (f : String → String) (cfg : Config) (index : Nat)
    (line sep : String) (rest0 : List String) (t : String) (rest' : List String)
    (st : SState)
    (hline : line ≠ "")
    (hsep : sep = if st.lineSep = "" then pyLastCharStr line else st.lineSep)
    (hq : st.inQuote = "") (ht : st.inTopComment = false) (hoff : st.isortOff = false)
    (hd : pyContainsChar line '"' = false) (hs : pyContainsChar line '\'' = false)
    (himp : startsWithAnyImport (pyStrip line) = true)
    (hpull : contPull (pyStrip line) rest0 = some (t, rest')) :
    lineStep f cfg index line rest0 st =
      some ([],
        { st with lineSep := sep, containsImports := true, indent := pyIndentOf line,
                  importSection := st.importSection ++ line ++ t },
        rest') := by
  have hh : pyStartsWith (pyStrip line) "#" = false := import_start_not_hash _ himp
  have hne : pyStrip line ≠ "" := import_start_ne_empty _ himp
  have hoffd : pyStrip line ≠ "# isort: off" := ne_of_hash_mismatch _ _ hh (by decide)
  have hond : pyStrip line ≠ "# isort: split" := ne_of_hash_mismatch _ _ hh (by decide)
  unfold lineStep
  rw [if_neg (by intro hc; exact hline hc.2)]
  simp only [← hsep]
  rw [topCommentStep_skip _ _ _ _ _ hh (by simp [ht]), scanLine_skip _ _ _ hd hs]
  simp only [hq, ht, hoff, hne, hh, himp, hoffd, hond]
  simp [hpull, str_append_assoc]

/-- C4 (amended): an import-start line that continues — via a trailing
backslash, or via an open parenthesis not balanced on the same logical line,
both judged on the entire stripped initial line including any trailing
comment — pulls subsequent physical lines into the current import section
until the continuation resolves, regardless of how many lines that spans, so
the whole multi-line statement lands in the section buffer as one unit handed
later to the sort contract.  On pulled continuation lines the checks ignore
text after `#` (a `)` or trailing backslash only inside a pulled line's
trailing comment is not seen): a parenthesized list ends at the first pulled
line whose comment-stripped text contains `)`, and a backslash chain ends at
the first pulled line whose comment-stripped text is empty or does not end in
a backslash.  Because the initial line's test uses the full stripped line,
parentheses appearing only inside its trailing comment DO start (or balance)
a continuation, contrary to the original claim. -/
theorem continuation_capture (f : String → String) (cfg : Config) (index : Nat)
    (line sep : String) (mid : List String) (last : String) (rest : List String)
    (st : SState)
    (hline : line ≠ "")
    (hsep : sep = if st.lineSep = "" then pyLastCharStr line else st.lineSep)
    (hq : st.inQuote = "") (ht : st.inTopComment = false) (hoff : st.isortOff = false)
    (hd : pyContainsChar line '"' = false) (hs : pyContainsChar line '\'' = false)
    (himp : startsWithAnyImport (pyStrip line) = true) :
    (pyEndsWith (pyStrip line) "\\" = false →
      pyContainsChar (pyStrip line) '(' = true →
      pyContainsChar (pyStrip line) ')' = false →
      (∀ l ∈ mid, pyContainsChar (hashChop (pyStrip l)) ')' = false) →
      pyContainsChar (hashChop (pyStrip last)) ')' = true →
      pyEndsWith (hashChop (pyStrip last)) "\\" = false →
      lineStep f cfg index line (mid ++ last :: rest) st =
        some ([],
          { st with lineSep := sep, containsImports := true, indent := pyIndentOf line,
                    importSection := st.importSection ++ line ++ (strConcat mid ++ last) },
          rest)) ∧
    (pyEndsWith (pyStrip line) "\\" = true →
      (∀ l ∈ mid, hashChop (pyStrip l) ≠ "" ∧
        pyEndsWith (hashChop (pyStrip l)) "\\" = true) →
      pyEndsWith (hashChop (pyStrip last)) "\\" = false →
      (pyContainsChar (hashChop (pyStrip last)) '(' &&
        !pyContainsChar (hashChop (pyStrip last)) ')') = false →
      lineStep f cfg index line (mid ++ last :: rest) st =
        some ([],
          { st with lineSep := sep, containsImports := true, indent := pyIndentOf line,
                    importSection := st.importSection ++ line ++ (strConcat mid ++ last) },
          rest)) := by
  constructor
  · intro hbs hop hcl hmid hlast hlastbs
    apply lineStep_import_pull f cfg index line sep _ _ _ st hline hsep hq ht hoff hd hs himp
    unfold contPull
    rw [show outerMode (pyStrip line) = some CMode.paren from by
      unfold outerMode
      rw [if_neg (by simp [hbs]), if_pos (by simp [hop, hcl])]]
    exact contGo_paren_run last rest hlast hlastbs mid (pyStrip line) hcl hmid
  · intro hbs hmid hlastbs hlastp
    apply lineStep_import_pull f cfg index line sep _ _ _ st hline hsep hq ht hoff hd hs himp
    unfold contPull
    rw [show outerMode (pyStrip line) = some CMode.bs from by
      unfold outerMode
      rw [if_pos hbs]]
    exact contGo_bs_run last rest hlastbs hlastp mid (pyStrip line)
      (import_start_ne_empty _ himp) hbs hmid

theorem topCommentStep_fields (sc : List String) (index : Nat) (line stripped : String)
    (st : SState) :
    (topCommentStep sc index line stripped st).importSection = st.importSection ∧
    (topCommentStep sc index line stripped st).addImports = st.addImports ∧
    (topCommentStep sc index line stripped st).inQuote = st.inQuote ∧
    (topCommentStep sc index line stripped st).isortOff = st.isortOff ∧
    (topCommentStep sc index line stripped st).containsImports = st.containsImports := by
  unfold topCommentStep
  split_ifs <;> exact ⟨rfl, rfl, rfl, rfl, rfl⟩

theorem scanLine_fields (index : Nat) (line : String) (st : SState) :
    (scanLine index line st).importSection = st.importSection ∧
    (scanLine index line st).addImports = st.addImports ∧
    (scanLine index line st).inTopComment = st.inTopComment ∧
    (scanLine index line st).isortOff = st.isortOff ∧
    (scanLine index line st).containsImports = st.containsImports := by
  unfold scanLine
  dsimp only
  split <;> exact ⟨rfl, rfl, rfl, rfl, rfl⟩

/-- Whatever branch the flush controller takes, the section accumulator is
empty afterwards. -/
theorem flushStep_section_empty (f : String → String) (sep line : String)
    (st : SState) : (flushStep f sep line st).2.importSection = "" := by
  have hemit : ∀ st1 : SState, (flushEmit f sep line st1).2.importSection = "" := by
    intro st1
    unfold flushEmit
    dsimp only
    split <;> rfl
  have hcore : ∀ st1 : SState, (flushCore f sep line st1).2.importSection = "" := by
    intro st1
    unfold flushCore
    by_cases h : st1.importSection ≠ ""
    · rw [if_pos h]
      exact hemit _
    · rw [if_neg h]
      simpa using h
  unfold flushStep
  exact hcore _

/-- C3 (amended): a line scanned while a string literal stays open, and a
line inside a suppressed region, are classified as non-import regardless of
their textual content and — provided the section buffer is empty, which the
engine invariantly guarantees at such lines (conjuncts one and two) — are
emitted byte-identically, with no lines consumed and the buffer left empty.
For the suppressed case the claim holds only when no pending additions
remain: the injection path ignores the suppression flag (see the
counterexample), so the amended claim adds that proviso; inside an open
literal the injection path is blocked by the quote state itself.  The first
conjunct shows both buffer invariants hold initially, the second that every
engine step preserves them, so the `importSection = ""` hypotheses of the
pass-through conjuncts hold at every reachable state. -/
theorem literal_and_suppressed_lines_passthrough (f : String → String)
    (cfg : Config) (index : Nat) (line : String) (rest : List String)
    (st : SState) (hline : line ≠ "") :
    (quoteEmptyInv (initialState cfg) ∧ offEmptyInv (initialState cfg)) ∧
    (∀ cs st' rest', lineStep f cfg index line rest st = some (cs, st', rest') →
      quoteEmptyInv st' ∧ offEmptyInv st') ∧
    (st.importSection = "" →
      (scanLine index line (topCommentStep (sectionComments cfg) index line
          (pyStrip line)
          { st with lineSep := if st.lineSep = "" then pyLastCharStr line
                               else st.lineSep })).inQuote ≠ "" →
      ∃ st', lineStep f cfg index line rest st
          = some ([OutChunk.verbatim line], st', rest) ∧
        st'.importSection = "") ∧
    (st.isortOff = true → st.importSection = "" → pyStrip line ≠ "# isort: on" →
      st.addImports = [] →
      ∃ st', lineStep f cfg index line rest st
          = some ([OutChunk.verbatim line], st', rest) ∧
        st'.importSection = "") := by
  have hguard : ¬ (st.lineSep = "" ∧ line = "") := by
    intro hc
    exact hline hc.2
  refine ⟨⟨fun _ => rfl, fun _ => rfl⟩, ?_, ?_, ?_⟩
  · intro cs st' rest' h
    unfold lineStep at h
    rw [if_neg hguard] at h
    dsimp only at h
    repeat' split at h
    all_goals cases h
    all_goals
      simp_all [quoteEmptyInv, offEmptyInv, flushStep_section_empty,
        scanLine_fields, topCommentStep_fields]
  · intro hsec hq3
    have hsec3 : (scanLine index line (topCommentStep (sectionComments cfg) index line
        (pyStrip line)
        { st with lineSep := if st.lineSep = "" then pyLastCharStr line
                             else st.lineSep })).importSection = "" := by
      rw [(scanLine_fields _ _ _).1, (topCommentStep_fields _ _ _ _ _).1]
      exact hsec
    refine ⟨_, ?_, hsec3⟩
    unfold lineStep
    rw [if_neg hguard]
    dsimp only
    rw [if_pos (Or.inl hq3)]
    rw [flushStep_empty_section f _ line _ hsec3 (Or.inr (Or.inr (Or.inl hq3)))]
  · intro hoff hsec hnoton hadds
    have hsec3 : (scanLine index line (topCommentStep (sectionComments cfg) index line
        (pyStrip line)
        { st with lineSep := if st.lineSep = "" then pyLastCharStr line
                             else st.lineSep })).importSection = "" := by
      rw [(scanLine_fields _ _ _).1, (topCommentStep_fields _ _ _ _ _).1]
      exact hsec
    have hadds3 : (scanLine index line (topCommentStep (sectionComments cfg) index line
        (pyStrip line)
        { st with lineSep := if st.lineSep = "" then pyLastCharStr line
                             else st.lineSep })).addImports = [] := by
      rw [(scanLine_fields _ _ _).2.1, (topCommentStep_fields _ _ _ _ _).2.1]
      exact hadds
    have hoff3 : (scanLine index line (topCommentStep (sectionComments cfg) index line
        (pyStrip line)
        { st with lineSep := if st.lineSep = "" then pyLastCharStr line
                             else st.lineSep })).isortOff = true := by
      rw [(scanLine_fields _ _ _).2.2.2.1, (topCommentStep_fields _ _ _ _ _).2.2.2.1]
      exact hoff
    refine ⟨_, ?_, hsec3⟩
    unfold lineStep
    rw [if_neg hguard]
    dsimp only
    by_cases hqt : (scanLine index line (topCommentStep (sectionComments cfg) index line
        (pyStrip line)
        { st with lineSep := if st.lineSep = "" then pyLastCharStr line
                             else st.lineSep })).inQuote ≠ "" ∨
      (scanLine index line (topCommentStep (sectionComments cfg) index line
        (pyStrip line)
        { st with lineSep := if st.lineSep = "" then pyLastCharStr line
                             else st.lineSep })).inTopComment = true
    · rw [if_pos hqt]
      rw [flushStep_empty_section f _ line _ hsec3 (Or.inl hadds3)]
    · rw [if_neg hqt, if_pos hoff3, if_neg hnoton]
      rw [flushStep_empty_section f _ line _ hsec3 (Or.inl hadds3)]

/-- C3 witness: the pass-through theorem applied inside a suppressed region
(`isort_off` set, no pending additions) to the syntactically valid import
line `"import sys\n"`: it is emitted unchanged and opens no section. -/
theorem literal_and_suppressed_lines_passthrough_witness :
    ∃ st', lineStep (fun s => s) {} 3 "import sys\n" []
        { initialState {} with isortOff := true }
        = some ([OutChunk.verbatim "import sys\n"], st', []) ∧
      st'.importSection = "" :=
  (literal_and_suppressed_lines_passthrough (fun s => s) {} 3 "import sys\n" []
    { initialState {} with isortOff := true } (by decide)).2.2.2
    rfl rfl (by decide) rfl

/-- C4 witness: the spec's parenthesized example `from a import (` /
`    b,` / `    c,` / `)` and the backslash chain `import a, \` / `b, \` /
`c` are each captured as one section unit, with the following line left
in the stream. -/
theorem continuation_capture_witness :
    (lineStep (fun s => s) {} 0 "from a import (\n"
      (["    b,\n", "    c,\n"] ++ ")\n" :: ["z = 1\n"]) (initialState {}) =
      some ([],
        { initialState {} with
            lineSep := "\n"
            containsImports := true
            indent := pyIndentOf "from a import (\n"
            importSection := (initialState {}).importSection ++ "from a import (\n" ++
              (strConcat ["    b,\n", "    c,\n"] ++ ")\n") },
        ["z = 1\n"])) ∧
    (lineStep (fun s => s) {} 0 "import a, \\\n"
      (["b, \\\n"] ++ "c\n" :: ["z\n"]) (initialState {}) =
      some ([],
        { initialState {} with
            lineSep := "\n"
            containsImports := true
            indent := pyIndentOf "import a, \\\n"
            importSection := (initialState {}).importSection ++ "import a, \\\n" ++
              (strConcat ["b, \\\n"] ++ "c\n") },
        ["z\n"])) :=
  ⟨(continuation_capture (fun s => s) {} 0 "from a import (\n" "\n"
      ["    b,\n", "    c,\n"] ")\n" ["z = 1\n"] (initialState {})
      (by decide) (by decide) rfl rfl rfl (by decide) (by decide) (by decide)).1
      (by decide) (by decide) (by decide) (by decide) (by decide) (by decide),
   (continuation_capture (fun s => s) {} 0 "import a, \\\n" "\n"
      ["b, \\\n"] "c\n" ["z\n"] (initialState {})
      (by decide) (by decide) rfl rfl rfl (by decide) (by decide) (by decide)).2
      (by decide) (by decide) (by decide) (by decide)⟩

theorem JoinOfP_empty (P : String → Prop) : JoinOfP P "" := ⟨[], by simp, rfl⟩

theorem JoinOfP_single (P : String → Prop) (line : String)
    (h : P line ∨ line = "") : JoinOfP P line := by
  refine ⟨[line], ?_, ?_⟩
  · intro l hl
    rw [List.mem_singleton] at hl
    subst hl
    exact h
  · show line = line ++ strConcat []
    rw [show strConcat [] = "" from rfl, str_append_empty]

theorem JoinOfP_append (P : String → Prop) (s line : String)
    (hs : JoinOfP P s) (h : P line ∨ line = "") : JoinOfP P (s ++ line) := by
  obtain ⟨ls, hm, he⟩ := hs
  refine ⟨ls ++ [line], ?_, ?_⟩
  · intro l hl
    rw [List.mem_append, List.mem_singleton] at hl
    rcases hl with hl | hl
    · exact hm l hl
    · subst hl
      exact h
  · rw [strConcat_snoc, he]

theorem flushEmit_chunks (P : String → Prop) (f : String → String)
    (sep line : String) (st : SState) (hline : P line ∨ line = "")
    (hbuf : BufferInvP P st) :
    (∀ s, OutChunk.verbatim s ∈ (flushEmit f sep line st).1 → JoinOfP P s) ∧
    BufferInvP P (flushEmit f sep line st).2 := by
  unfold flushEmit
  dsimp only
  by_cases hc : st.containsImports = false
  · rw [if_pos hc]
    dsimp only
    constructor
    · intro s hs
      rw [List.mem_append] at hs
      rcases hs with hs | hs
      · rw [List.mem_singleton, OutChunk.verbatim.injEq] at hs
        subst hs
        by_cases hi : st.indent = ""
        · rw [if_pos hi]
          exact JoinOfP_append P _ line (hbuf hc) hline
        · rw [if_neg hi]
          exact hbuf hc
      · by_cases hi : st.indent ≠ ""
        · rw [if_pos hi, List.mem_singleton, OutChunk.verbatim.injEq] at hs
          rw [hs]
          exact JoinOfP_single P line hline
        · rw [if_neg hi] at hs
          cases hs
    · intro _
      exact JoinOfP_empty P
  · rw [if_neg hc]
    dsimp only
    constructor
    · intro s hs
      rw [List.mem_append] at hs
      rcases hs with hs | hs
      · rw [List.mem_singleton] at hs
        cases hs
      · by_cases hi : st.indent ≠ ""
        · rw [if_pos hi, List.mem_singleton, OutChunk.verbatim.injEq] at hs
          rw [hs]
          exact JoinOfP_single P line hline
        · rw [if_neg hi] at hs
          cases hs
    · intro _
      exact JoinOfP_empty P

theorem flushCore_chunks (P : String → Prop) (f : String → String)
    (sep line : String) (st : SState) (hline : P line ∨ line = "")
    (hbuf : BufferInvP P st) :
    (∀ s, OutChunk.verbatim s ∈ (flushCore f sep line st).1 → JoinOfP P s) ∧
    BufferInvP P (flushCore f sep line st).2 := by
  unfold flushCore
  by_cases hsec : st.importSection ≠ ""
  · rw [if_pos hsec]
    apply flushEmit_chunks P f sep line _ hline
    by_cases h2a : st.addImports ≠ [] ∧ st.indent = ""
    · rw [if_pos h2a]
      intro hc
      simp at hc
    · rw [if_neg h2a]
      exact hbuf
  · rw [if_neg hsec]
    dsimp only
    constructor
    · intro s hs
      rw [List.mem_singleton, OutChunk.verbatim.injEq] at hs
      rw [hs]
      exact JoinOfP_single P line hline
    · exact hbuf

theorem flushStep_chunks (P : String → Prop) (f : String → String)
    (sep line : String) (st : SState) (hline : P line ∨ line = "")
    (hbuf : BufferInvP P st) :
    (∀ s, OutChunk.verbatim s ∈ (flushStep f sep line st).1 → JoinOfP P s) ∧
    BufferInvP P (flushStep f sep line st).2 := by
  unfold flushStep
  apply flushCore_chunks P f sep line _ hline
  by_cases hinj : st.addImports ≠ [] ∧ st.inTopComment = false ∧ st.inQuote = "" ∧
      st.importSection = "" ∧ startsWithAnyCI (pyLstrip line) = false
  · rw [if_pos hinj]
    intro hc
    simp at hc
  · rw [if_neg hinj]
    exact hbuf

theorem contGo_rest_mem : ∀ (lines : List String) (m : CMode) (s t : String)
    (r : List String), contGo m s lines = some (t, r) → ∀ l ∈ r, l ∈ lines := by
  intro lines
  induction lines with
  | nil =>
      intro m s t r h
      have hr : r = [] := by
        unfold contGo at h
        repeat' split at h
        all_goals first
          | (cases h; rfl)
          | cases h
          | simp_all
      subst hr
      intro l hl
      cases hl
  | cons a as ih =>
      intro m s t r h
      have step : ∀ M : CMode,
          (contGo M (hashChop (pyStrip a)) as).map (fun tr => (a ++ tr.1, tr.2))
            = some (t, r) → ∀ l ∈ r, l ∈ a :: as := by
        intro M hM
        rcases hgo : contGo M (hashChop (pyStrip a)) as with _ | tr
        · rw [hgo] at hM
          cases hM
        · rw [hgo] at hM
          simp only [Option.map_some'] at hM
          cases hM
          intro l hl
          exact List.mem_cons_of_mem a (ih M _ tr.1 tr.2 hgo l hl)
      unfold contGo at h
      by_cases hin : innerCond m s = true
      · rw [if_pos hin] at h
        cases m
        · exact step CMode.bs h
        · exact step CMode.paren h
      · rw [if_neg hin] at h
        rcases ho : outerMode s with _ | m' <;> rw [ho] at h
        · dsimp only at h
          cases h
          intro l hl
          exact hl
        · cases m'
          · exact step CMode.bs h
          · exact step CMode.paren h

theorem contPull_rest_mem (s : String) (lines : List String) (t : String)
    (r : List String) (h : contPull s lines = some (t, r)) : ∀ l ∈ r, l ∈ lines := by
  unfold contPull at h
  split at h
  · cases h
    intro l hl
    exact hl
  · exact contGo_rest_mem lines _ s t r h

theorem lineStep_chunks (P : String → Prop) (f : String → String) (cfg : Config)
    (index : Nat) (line : String) (rest : List String) (st : SState)
    (cs : List OutChunk) (st' : SState) (rest' : List String)
    (hline : P line) (hrest : ∀ l ∈ rest, P l) (hbuf : BufferInvP P st)
    (h : lineStep f cfg index line rest st = some (cs, st', rest')) :
    (∀ s, OutChunk.verbatim s ∈ cs → JoinOfP P s) ∧ BufferInvP P st' ∧
    (∀ l ∈ rest', P l) := by
  unfold lineStep at h
  split at h
  · cases h
  · dsimp only at h
    set A := scanLine index line (topCommentStep (sectionComments cfg) index line
      (pyStrip line)
      { st with lineSep := if st.lineSep = "" then pyLastCharStr line
                           else st.lineSep }) with hA
    have hbufA : BufferInvP P A := by
      rw [hA]
      intro hc
      rw [(scanLine_fields _ _ _).1, (topCommentStep_fields _ _ _ _ _).1]
      apply hbuf
      rw [(scanLine_fields index line (topCommentStep (sectionComments cfg) index line
          (pyStrip line)
          { st with lineSep := if st.lineSep = "" then pyLastCharStr line
                               else st.lineSep })).2.2.2.2,
        (topCommentStep_fields (sectionComments cfg) index line (pyStrip line)
          { st with lineSep := if st.lineSep = "" then pyLastCharStr line
                               else st.lineSep }).2.2.2.2] at hc
      exact hc
    by_cases hb1 : A.inQuote ≠ "" ∨ A.inTopComment = true
    · rw [if_pos hb1] at h
      cases h
      exact ⟨(flushStep_chunks P f _ line A (Or.inl hline) hbufA).1,
        (flushStep_chunks P f _ line A (Or.inl hline) hbufA).2, hrest⟩
    · rw [if_neg hb1] at h
      by_cases hb2 : A.isortOff = true
      · rw [if_pos hb2] at h
        by_cases hon : pyStrip line = "# isort: on"
        · rw [if_pos hon] at h
          cases h
          exact ⟨(flushStep_chunks P f _ line { A with isortOff := false }
              (Or.inl hline) hbufA).1,
            (flushStep_chunks P f _ line { A with isortOff := false }
              (Or.inl hline) hbufA).2, hrest⟩
        · rw [if_neg hon] at h
          cases h
          exact ⟨(flushStep_chunks P f _ line A (Or.inl hline) hbufA).1,
            (flushStep_chunks P f _ line A (Or.inl hline) hbufA).2, hrest⟩
      · rw [if_neg hb2] at h
        by_cases hoff : pyStrip line = "# isort: off"
        · rw [if_pos hoff] at h
          cases h
          exact ⟨(flushStep_chunks P f _ line { A with isortOff := true }
              (Or.inl hline) hbufA).1,
            (flushStep_chunks P f _ line { A with isortOff := true }
              (Or.inl hline) hbufA).2, hrest⟩
        · rw [if_neg hoff] at h
          by_cases hsp : pyStrip line = "# isort: split"
          · rw [if_pos hsp] at h
            cases h
            exact ⟨(flushStep_chunks P f _ line A (Or.inl hline) hbufA).1,
              (flushStep_chunks P f _ line A (Or.inl hline) hbufA).2, hrest⟩
          · rw [if_neg hsp] at h
            by_cases hbc : pyStrip line = "" ∨ pyStartsWith (pyStrip line) "#" = true
            · rw [if_pos hbc] at h
              cases h
              refine ⟨fun s hs => absurd hs (by simp), ?_, hrest⟩
              intro hc
              exact JoinOfP_append P _ line (hbufA hc) (Or.inl hline)
            · rw [if_neg hbc] at h
              by_cases him : startsWithAnyImport (pyStrip line) = true
              · rw [if_pos him] at h
                rcases hp : contPull (pyStrip line) rest with _ | ⟨t0, r0⟩ <;>
                  rw [hp] at h
                · cases h
                · dsimp only at h
                  cases h
                  refine ⟨fun s hs => absurd hs (by simp),
                    fun hc => absurd hc (by simp), ?_⟩
                  intro l hl
                  exact hrest l (contPull_rest_mem _ _ _ _ hp l hl)
              · rw [if_neg him] at h
                cases h
                exact ⟨(flushStep_chunks P f _ line A (Or.inl hline) hbufA).1,
                  (flushStep_chunks P f _ line A (Or.inl hline) hbufA).2, hrest⟩

theorem sortLoop_chunks (P : String → Prop) (f : String → String) (cfg : Config) :
    ∀ (fuel : Nat) (lines : List String) (index : Nat) (st : SState)
      (chunks : List OutChunk),
      (∀ l ∈ lines, P l) → BufferInvP P st →
      sortLoop f cfg fuel lines index st = some chunks →
      ∀ s, OutChunk.verbatim s ∈ chunks → JoinOfP P s := by
  intro fuel
  induction fuel with
  | zero =>
      intro lines index st chunks _ _ h
      cases h
  | succ n ih =>
      intro lines index st chunks hl hbuf h
      cases lines with
      | nil =>
          rw [sortLoop] at h
          split at h
          · cases h
            intro s hs
            cases hs
          · cases h
            intro s hs
            unfold sentinelStep at hs
            dsimp only at hs
            exact (flushStep_chunks P f (if st.lineSep = "" then "\n" else st.lineSep) ""
              { st with lineSep := if st.lineSep = "" then "\n" else st.lineSep }
              (Or.inr rfl) hbuf).1 s hs
      | cons a as =>
          rw [sortLoop] at h
          rcases hls : lineStep f cfg index a as st with _ | ⟨cs, st2, rest2⟩
          · rw [hls] at h
            cases h
          · rw [hls] at h
            dsimp only at h
            rcases hrec : sortLoop f cfg n rest2 (index + 1) st2 with _ | tail
            · rw [hrec] at h
              cases h
            · rw [hrec] at h
              simp only [Option.map_some'] at h
              cases h
              have hstep := lineStep_chunks P f cfg index a as st cs st2 rest2
                (hl a (by simp)) (fun l hl' => hl l (by simp [hl'])) hbuf hls
              intro s hs
              rw [List.mem_append] at hs
              rcases hs with hs | hs
              · exact hstep.1 s hs
              · exact ih rest2 (index + 1) st2 tail hstep.2.2 hstep.2.1 hrec s hs

/-- C1 (amended): every chunk of text the engine writes directly — an
ordinary line flushed with an empty buffer, a line inside a suppressed region
or an open literal, a buffered comment/blank-only section, the trigger line
written after an indented section, and the end-of-stream sentinel — is a
concatenation of input lines written byte-identically (the sentinel
contributes the empty string); only the blocks produced by the external
categorize/sort contract may differ from the input, and the line terminating
an unindented import-bearing section is folded into the text handed to the
contract rather than written directly (see the counterexample). -/
theorem nonimport_lines_written_verbatim (f : String → String) (cfg : Config)
    (lines : List String) (chunks : List OutChunk)
    (h : sortImportsChunks f cfg lines = some chunks) :
    ∀ s, OutChunk.verbatim s ∈ chunks →
      ∃ ls : List String, (∀ l ∈ ls, l ∈ lines ∨ l = "") ∧ s = strConcat ls := by
  intro s hs
  exact sortLoop_chunks (fun l => l ∈ lines) f cfg (lines.length + 1) lines 0
    (initialState cfg) chunks (fun l hl => hl) (fun _ => JoinOfP_empty _) h s hs

/-- C1 witness: in the run on the single ordinary line `"x = 1\n"` (written
verbatim by the engine), the theorem exhibits that chunk as a concatenation
of input lines. -/
theorem nonimport_lines_written_verbatim_witness :
    ∃ ls : List String, (∀ l ∈ ls, l ∈ ["x = 1\n"] ∨ l = "") ∧
      "x = 1\n" = strConcat ls :=
  nonimport_lines_written_verbatim (fun s => s) {} ["x = 1\n"]
    [OutChunk.verbatim "x = 1\n", OutChunk.verbatim ""] rfl "x = 1\n" (by simp)

/-- C10 witness: the input `"import a"` (no final newline) with a contract
returning `"import a\n"`: the sorted output differs from the input only by
the trailing newline, and `check_imports` reports success. -/
theorem check_imports_strips_whitespace_witness :
    checkImports (fun _ => true) false (fun _ => "import a\n") (fun s => s)
      {} "import a" false = some (Except.ok true) :=
  check_imports_strips_whitespace (fun _ => true) false (fun _ => "import a\n")
    (fun s => s) {} "import a" "import a\n" false rfl rfl (by decide)

end Isort
